import Mathlib

/-!
Verification development for the grpc-scope event distribution and replay core.

The definitions below are shallow embeddings of the Go sources:
* `internal/domain/call_event.go` — the CallEvent value type and StatusCode rendering;
* `internal/event/broker.go` — the publish/subscribe broker, with Go channel
  semantics (close-of-closed and send-on-closed panic) modelled via `Option`;
* the scope server's `Watch` stream handler — modelled as a function of the
  trace of select outcomes observed by its loop;
* `replay/replay.go` — `ParseMethod`, `FilterMetadata`, the outgoing-metadata
  assembly, `resolveMethod` and `Send`, with the network interactions
  (reflection stream, dynamic unmarshal/marshal, `Invoke`) supplied by oracles.

Machine integers are modelled as `Int`/`Nat`; Go maps are modelled as
association lists whose order stands for the (unspecified) iteration order.
-/

/-! ## CallEvent model (`internal/domain/call_event.go`) -/

/-- `StatusCode` is a Go `int32`; modelled as `Int`. -/
abbrev StatusCode := Int

def StatusUnspecified : StatusCode := 0
def StatusOK : StatusCode := 1
def StatusCancelled : StatusCode := 2
def StatusUnknown : StatusCode := 3
def StatusInvalidArgument : StatusCode := 4
def StatusDeadlineExceeded : StatusCode := 5
def StatusNotFound : StatusCode := 6
def StatusAlreadyExists : StatusCode := 7
def StatusPermissionDenied : StatusCode := 8
def StatusResourceExhausted : StatusCode := 9
def StatusFailedPrecondition : StatusCode := 10
def StatusAborted : StatusCode := 11
def StatusOutOfRange : StatusCode := 12
def StatusUnimplemented : StatusCode := 13
def StatusInternal : StatusCode := 14
def StatusUnavailable : StatusCode := 15
def StatusDataLoss : StatusCode := 16
def StatusUnauthenticated : StatusCode := 17

/-- gRPC metadata (headers/trailers): header name to ordered list of values.
Go's `map[string][]string` is modelled as an association list; list order
stands for map iteration order. -/
abbrev Metadata := List (String × List String)

/-- One captured gRPC call (`domain.CallEvent`).  Times and durations are
modelled as integer nanoseconds. -/
structure CallEvent where
  ID : String
  Method : String
  StartTimeNs : Int
  DurationNs : Int
  statusCode : StatusCode
  StatusMessage : String
  RequestMetadata : Metadata
  ResponseHeaders : Metadata
  ResponseTrailers : Metadata
  RequestPayload : String
  ResponsePayload : String
deriving DecidableEq, Repr

/-- `CallEvent.IsError` from the source. -/
def CallEvent.IsError (e : CallEvent) : Bool :=
  e.statusCode != StatusOK

/-- `StatusCode.String()` from the source: the switch over the named
constants, defaulting to `"UNKNOWN"`. -/
def statusCodeString (c : StatusCode) : String :=
  if c = StatusUnspecified then "UNSPECIFIED"
  else if c = StatusOK then "OK"
  else if c = StatusCancelled then "CANCELLED"
  else if c = StatusUnknown then "UNKNOWN"
  else if c = StatusInvalidArgument then "INVALID_ARGUMENT"
  else if c = StatusDeadlineExceeded then "DEADLINE_EXCEEDED"
  else if c = StatusNotFound then "NOT_FOUND"
  else if c = StatusAlreadyExists then "ALREADY_EXISTS"
  else if c = StatusPermissionDenied then "PERMISSION_DENIED"
  else if c = StatusResourceExhausted then "RESOURCE_EXHAUSTED"
  else if c = StatusFailedPrecondition then "FAILED_PRECONDITION"
  else if c = StatusAborted then "ABORTED"
  else if c = StatusOutOfRange then "OUT_OF_RANGE"
  else if c = StatusUnimplemented then "UNIMPLEMENTED"
  else if c = StatusInternal then "INTERNAL"
  else if c = StatusUnavailable then "UNAVAILABLE"
  else if c = StatusDataLoss then "DATA_LOSS"
  else if c = StatusUnauthenticated then "UNAUTHENTICATED"
  else "UNKNOWN"

/-! ## Broker model (`internal/event/broker.go`)

Go channels are modelled explicitly so that the panicking operations —
closing a closed channel, sending on a closed channel — can be expressed:
each such operation returns `Option`, with `none` standing for a panic.
A `Broker` keeps every channel ever allocated in `chans` (keyed by the
subscriber id it was created for; ids and channels are in one-to-one
correspondence in the source), while `registry` holds the ids currently in
the Go `subscribers` map. -/

/-- A buffered Go channel of `CallEvent`s. -/
structure Chan where
  buf : List CallEvent
  cap : Nat
  closed : Bool
deriving DecidableEq, Repr

/-- The broker state: `registry` is the key set of the `subscribers` map,
`chans` maps each ever-allocated subscriber id to its channel. -/
structure Broker where
  chans : List (Nat × Chan)
  registry : List Nat
  nextID : Nat
  bufSize : Nat
deriving DecidableEq, Repr

/-- `NewBroker` from the source. -/
def NewBroker (bufSize : Nat) : Broker :=
  { chans := [], registry := [], nextID := 0, bufSize := bufSize }

/-- First-match lookup of a channel by subscriber id. -/
def lookupChan : List (Nat × Chan) → Nat → Option Chan
  | [], _ => none
  | (i, c) :: rest, j => if i = j then some c else lookupChan rest j

/-- Go `close(ch)`: panics (`none`) on an already-closed channel. -/
def closeChan (c : Chan) : Option Chan :=
  if c.closed then none else some { c with closed := true }

/-- The `select { case ch <- event: default: }` in `Publish`: panics (`none`)
on a closed channel, enqueues when there is spare capacity, silently drops
the event otherwise. -/
def trySend (c : Chan) (e : CallEvent) : Option Chan :=
  if c.closed then none
  else if c.buf.length < c.cap then some { c with buf := c.buf ++ [e] }
  else some c

/-- Apply a fallible channel operation to the channel registered under `j`;
`none` if no such channel or the operation panics. -/
def updateChan : List (Nat × Chan) → Nat → (Chan → Option Chan) → Option (List (Nat × Chan))
  | [], _, _ => none
  | (i, c) :: rest, j, f =>
    if i = j then (f c).map fun c2 => (i, c2) :: rest
    else (updateChan rest j f).map fun cs => (i, c) :: cs

/-- `Broker.Subscribe` from the source: allocate a fresh id and a channel
buffered at `bufSize`, register it, and return the id (standing for the
receive end plus the captured unsubscribe closure). -/
def Broker.Subscribe (b : Broker) : Broker × Nat :=
  ({ chans := b.chans ++ [(b.nextID, { buf := [], cap := b.bufSize, closed := false })],
     registry := b.registry ++ [b.nextID],
     nextID := b.nextID + 1,
     bufSize := b.bufSize }, b.nextID)

/-- The unsubscribe closure returned by `Subscribe`, for subscriber `j`:
if `j` is still in the map, remove it and close its channel; otherwise do
nothing. -/
def Broker.unsubscribe (b : Broker) (j : Nat) : Option Broker :=
  if j ∈ b.registry then
    (updateChan b.chans j closeChan).map fun cs =>
      { b with registry := b.registry.erase j, chans := cs }
  else some b

/-- `Broker.Publish` from the source: non-blocking send to every currently
registered subscriber's channel. -/
def Broker.Publish (b : Broker) (e : CallEvent) : Option Broker :=
  (b.registry.foldlM (fun cs j => updateChan cs j (fun c => trySend c e)) b.chans).map
    fun cs => { b with chans := cs }

/-- One API call against the broker. -/
inductive BrokerOp where
  | subscribe
  | unsubscribe (j : Nat)
  | publish (e : CallEvent)
deriving DecidableEq, Repr

/-- Execute one API call; `none` is a panic. -/
def Broker.step (b : Broker) : BrokerOp → Option Broker
  | .subscribe => some (b.Subscribe).1
  | .unsubscribe j => b.unsubscribe j
  | .publish e => b.Publish e

/-- Execute a sequence of API calls. -/
def Broker.run (b : Broker) : List BrokerOp → Option Broker
  | [] => some b
  | op :: ops => (b.step op).bind fun b2 => b2.run ops

/-- The channel registered under `j` exists, is open, and has capacity
`cap`. -/
def chanOpenWithCap (cs : List (Nat × Chan)) (cap : Nat) (j : Nat) : Bool :=
  match lookupChan cs j with
  | some c => !c.closed && c.cap == cap
  | none => false

/-- Well-formedness of API-reachable broker states: registered ids are
distinct, every registered id owns an open channel of capacity `bufSize`,
and all allocated ids are below `nextID`. -/
def BrokerWF (b : Broker) : Prop :=
  b.registry.Nodup ∧
  (∀ j ∈ b.registry, chanOpenWithCap b.chans b.bufSize j = true) ∧
  (∀ p ∈ b.chans, p.1 < b.nextID)

/-- A sample captured call used in concrete witnesses. -/
def sampleEvent : CallEvent :=
  { ID := "evt-1", Method := "/greeter.v1.GreeterService/SayHello",
    StartTimeNs := 0, DurationNs := 1000, statusCode := StatusOK,
    StatusMessage := "", RequestMetadata := [], ResponseHeaders := [],
    ResponseTrailers := [], RequestPayload := "\x7b\x7d", ResponsePayload := "\x7b\x7d" }

/-- A broker with two live subscribers of capacity 1, the first of whose
queues is already full. -/
def fullQueueBroker : Broker :=
  { chans := [(0, { buf := [sampleEvent], cap := 1, closed := false }),
              (1, { buf := [], cap := 1, closed := false })],
    registry := [0, 1], nextID := 2, bufSize := 1 }

/-! ## Watch stream handler model (`scopeService.Watch`)

The handler's loop repeatedly selects between the request context being done
and a receive on the subscription channel.  Its interaction with the runtime
is modelled as the trace of outcomes the select observed; the handler itself
is the function from that trace to its terminal result and the list of
actions (stream sends, the deferred unsubscribe) it performed. -/

/-- One iteration's observed select outcome: the context finished with the
given cancellation cause (`ctx.Err()`); a value was received, with the
outcome of the subsequent `stream.Send`; or the channel was observed
closed. -/
inductive WatchEvent where
  | ctxDone (cause : String)
  | recv (e : CallEvent) (sendErr : Option String)
  | recvClosed
deriving DecidableEq, Repr

/-- Externally visible actions of the handler. -/
inductive WatchAction where
  | send (e : CallEvent)
  | unsubscribe
deriving DecidableEq, Repr

/-- Whether an action is the unsubscribe call. -/
def isUnsub : WatchAction → Bool
  | .unsubscribe => true
  | _ => false

/-- The `Watch` loop over a trace of select outcomes.  The first component is
`none` while the loop is still running (trace exhausted), `some o` when the
handler returned with outcome `o` (`none` = nil error).  The second
component lists the performed actions; `defer unsub()` contributes exactly
one `.unsubscribe` on every return path. -/
def watchRun : List WatchEvent → Option (Option String) × List WatchAction
  | [] => (none, [])
  | .ctxDone cause :: _ => (some (some cause), [.unsubscribe])
  | .recvClosed :: _ => (some none, [.unsubscribe])
  | .recv e sendErr :: rest =>
    match sendErr with
    | some msg => (some (some msg), [.send e, .unsubscribe])
    | none =>
      let r := watchRun rest
      (r.1, .send e :: r.2)

/-! ## Replay engine model (`replay/replay.go`)

`ParseMethod` and `FilterMetadata` are pure and embedded directly.  `Send`
and `resolveMethod` perform network round trips; each effectful step's
outcome is supplied by an oracle, and the surrounding control flow is
embedded faithfully. -/

/-- `ReplayMetadataKey` from the source. -/
def ReplayMetadataKey : String := "x-grpc-scope-replay"

/-- `replay.Request`; `Metadata = none` models a nil Go map. -/
structure Request where
  Method : String
  PayloadJSON : String
  Metadata : Option Metadata
deriving DecidableEq, Repr

/-- `replay.Result`; `StatusCode` is a Go `uint32` holding a gRPC code. -/
structure Result where
  ResponseJSON : String
  StatusCode : Nat
  StatusMessage : String
  DurationNs : Nat
  ResponseHeaders : Metadata
  ResponseTrailers : Metadata
deriving DecidableEq, Repr

/-- Structured rendering of the `fmt.Errorf` failures in `replay.go`. -/
inductive ReplayError where
  | invalidMethodFormat (s : String)
  | openReflectionStream (msg : String)
  | sendReflectionRequest (msg : String)
  | recvReflectionResponse (msg : String)
  | reflectionError (msg : String)
  | unexpectedReflectionResponse
  | unmarshalFileDescriptor
  | buildFileDescriptor (name : String)
  | serviceNotFound (svc : String)
  | methodNotFound (svc method : String)
  | streamingNotSupported
  | unmarshalRequestJSON
  | marshalResponseJSON
deriving DecidableEq, Repr

/-- `strings.TrimPrefix(s, "/")`: remove one leading slash if present. -/
def trimLeadingSlash : List Char → List Char
  | '/' :: rest => rest
  | l => l

/-- `strings.SplitN(s, "/", 2)`: `none` when `s` has no slash, otherwise the
parts before and after the first slash. -/
def splitFirstSlash : List Char → Option (List Char × List Char)
  | [] => none
  | ch :: rest =>
    if ch = '/' then some ([], rest)
    else
      match splitFirstSlash rest with
      | some (a, b2) => some (ch :: a, b2)
      | none => none

/-- `ParseMethod` from the source. -/
def ParseMethod (fullMethod : String) : Except ReplayError (String × String) :=
  match splitFirstSlash (trimLeadingSlash fullMethod.data) with
  | none => .error (.invalidMethodFormat ⟨trimLeadingSlash fullMethod.data⟩)
  | some (svc, m) =>
    if svc = [] ∨ m = [] then
      .error (.invalidMethodFormat ⟨trimLeadingSlash fullMethod.data⟩)
    else .ok (⟨svc⟩, ⟨m⟩)

/-- `strings.ToLower` (per-character lower-casing), defined over the
character data so that it evaluates by reduction. -/
def toLowerStr (s : String) : String :=
  ⟨s.data.map Char.toLower⟩

/-- `strings.HasPrefix s p`, defined over the character data. -/
def strStartsWith (s p : String) : Bool :=
  p.data.isPrefixOf s.data

/-- The transport-header predicate of `FilterMetadata` (applied to the
already lower-cased key). -/
def isTransportKey (lower : String) : Bool :=
  lower == ":authority" || lower == "content-type" || lower == "user-agent" ||
  lower == "te" || strStartsWith lower "grpc-"

/-- Go map assignment `out[k] = v` on the association-list model: replace
the value if the key is present, append otherwise. -/
def mdInsert : Metadata → String → List String → Metadata
  | [], k, v => [(k, v)]
  | kv :: rest, k, v => if kv.1 = k then (k, v) :: rest else kv :: mdInsert rest k v

/-- `FilterMetadata` from the source. -/
def FilterMetadata (md : Option Metadata) : Option Metadata :=
  match md with
  | none => none
  | some m =>
    let out := m.foldl (fun acc kv =>
      if isTransportKey (toLowerStr kv.1) then acc
      else mdInsert acc (toLowerStr kv.1) kv.2) []
    if out = [] then none else some out

/-- The output `FilterMetadata` is specified to produce, built from the
spec's words (for comparison with the implementation): drop the transport
keys case-insensitively, lower-case each surviving key, keep its value
list. -/
def specSurvivors (m : Metadata) : Metadata :=
  (m.filter fun kv => !isTransportKey (toLowerStr kv.1)).map
    fun kv => (toLowerStr kv.1, kv.2)

/-- Map lookup on the association-list model. -/
def mdLookup : Metadata → String → Option (List String)
  | [], _ => none
  | kv :: rest, k => if kv.1 = k then some kv.2 else mdLookup rest k

/-- `metadata.MD.Set`: lower-cases the key and replaces any existing
values. -/
def mdSet (m : Metadata) (k : String) (v : List String) : Metadata :=
  mdInsert m (toLowerStr k) v

/-- The metadata `Send` attaches to the outgoing invocation context:
`FilterMetadata(req.Metadata)`, replaced by an empty map when nil, then
`Set(ReplayMetadataKey, "true")`. -/
def attachedMetadata (req : Request) : Metadata :=
  let md := match FilterMetadata req.Metadata with
    | none => []
    | some m => m
  mdSet md ReplayMetadataKey ["true"]

/-- A method descriptor as resolved via reflection. -/
structure MethodDesc where
  name : String
  streamingClient : Bool
  streamingServer : Bool
  inputType : String
  outputType : String
deriving DecidableEq, Repr

/-- A service descriptor: fully qualified name and its methods. -/
structure ServiceDesc where
  fullName : String
  methods : List MethodDesc
deriving DecidableEq, Repr

/-- A decoded `FileDescriptorProto`: its path, the services it declares, and
whether `protodesc.NewFile`/`RegisterFile` would succeed on it. -/
structure FdProto where
  name : String
  services : List ServiceDesc
  buildOk : Bool
deriving DecidableEq, Repr

/-- A schema file registered into the local registry. -/
structure FileDesc where
  name : String
  services : List ServiceDesc
deriving DecidableEq, Repr

/-- One serialized file from the reflection response; `none` stands for
bytes that `proto.Unmarshal` rejects. -/
abbrev RawFile := Option FdProto

/-- The message carried by the reflection response `Send` waits for. -/
inductive ReflectionResponse where
  | fileDescriptors (files : List RawFile)
  | errorResponse (msg : String)
  | other
deriving DecidableEq, Repr

/-- Outcomes of the three network steps of the reflection exchange. -/
structure ReflectionOracle where
  openErr : Option String
  sendErr : Option String
  recvResult : Except String ReflectionResponse
deriving Repr

/-- The registration loop of `resolveMethod`: decode each file, skip files
whose path is already registered (dependencies may overlap), fail if
decoding or building/registering fails. -/
def registerFiles : List RawFile → List FileDesc → Except ReplayError (List FileDesc)
  | [], acc => .ok acc
  | none :: _, _ => .error .unmarshalFileDescriptor
  | some p :: rest, acc =>
    if (acc.map FileDesc.name).contains p.name then registerFiles rest acc
    else if p.buildOk then registerFiles rest (acc ++ [⟨p.name, p.services⟩])
    else .error (.buildFileDescriptor p.name)

/-- `files.FindDescriptorByName` restricted to service symbols, followed by
the method-set view: locate the service by fully qualified name among the
registered files. -/
def findService (reg : List FileDesc) (svc : String) : Option ServiceDesc :=
  (reg.foldl (fun acc fd => acc ++ fd.services) []).find? fun sd => sd.fullName == svc

/-- `Client.resolveMethod`: the reflection exchange, registration with
per-file-name deduplication, service and method lookup, and the streaming
rejection — performed before any invocation. -/
def resolveMethod (o : ReflectionOracle) (svc method : String) :
    Except ReplayError MethodDesc :=
  match o.openErr with
  | some msg => .error (.openReflectionStream msg)
  | none =>
  match o.sendErr with
  | some msg => .error (.sendReflectionRequest msg)
  | none =>
  match o.recvResult with
  | .error msg => .error (.recvReflectionResponse msg)
  | .ok (.errorResponse msg) => .error (.reflectionError msg)
  | .ok .other => .error .unexpectedReflectionResponse
  | .ok (.fileDescriptors raws) =>
    match registerFiles raws [] with
    | .error e => .error e
    | .ok reg =>
      match findService reg svc with
      | none => .error (.serviceNotFound svc)
      | some sd =>
        match sd.methods.find? (fun m2 => m2.name == method) with
        | none => .error (.methodNotFound svc method)
        | some mdesc =>
          if mdesc.streamingClient || mdesc.streamingServer then
            .error .streamingNotSupported
          else .ok mdesc

/-- gRPC status as extracted by `status.FromError`. -/
structure GStatus where
  code : Nat
  message : String
deriving DecidableEq, Repr

/-- Outcome of `ClientConn.Invoke` plus the recorded headers, trailers and
elapsed wall-clock time.  `err = some st` is any invocation error as seen
through `status.FromError` — a remote non-OK answer, but also a cancellation
of the 30-second `callCtx` or of the caller's context during the invocation,
which grpc surfaces as a status error with code 4 (`DeadlineExceeded`) or
1 (`Cancelled`). -/
structure InvokeOutcome where
  err : Option GStatus
  headers : Metadata
  trailers : Metadata
  durationNs : Nat
deriving DecidableEq, Repr

/-- Oracles for the effectful steps of `Send`: the reflection exchange, the
schema-driven `protojson.Unmarshal` of the request payload, the invocation
(a function of the metadata attached to the outgoing context), and the
`protojson.Marshal` of the response message. -/
structure SendOracle where
  reflection : ReflectionOracle
  unmarshalOk : String → Bool
  invoke : Metadata → InvokeOutcome
  marshalResponse : Option String

/-- The payload default in `Send`: an empty `PayloadJSON` is treated as
`"{}"`. -/
def effectivePayload (req : Request) : String :=
  if req.PayloadJSON = "" then "\x7b\x7d" else req.PayloadJSON

/-- `Client.Send` from the source. -/
def Send (o : SendOracle) (req : Request) : Except ReplayError Result :=
  match ParseMethod req.Method with
  | .error e => .error e
  | .ok (svc, method) =>
  match resolveMethod o.reflection svc method with
  | .error e => .error e
  | .ok _ =>
  if o.unmarshalOk (effectivePayload req) = false then .error .unmarshalRequestJSON
  else
    let inv := o.invoke (attachedMetadata req)
    match inv.err with
    | some st =>
      .ok { ResponseJSON := "", StatusCode := st.code, StatusMessage := st.message,
            DurationNs := inv.durationNs, ResponseHeaders := inv.headers,
            ResponseTrailers := inv.trailers }
    | none =>
      match o.marshalResponse with
      | none => .error .marshalResponseJSON
      | some j =>
        .ok { ResponseJSON := j, StatusCode := 0, StatusMessage := "",
              DurationNs := inv.durationNs, ResponseHeaders := inv.headers,
              ResponseTrailers := inv.trailers }

/-! ### Concrete replay fixtures for witnesses -/

/-- A unary method of the sample service. -/
def greeterMethod : MethodDesc :=
  { name := "SayHello", streamingClient := false, streamingServer := false,
    inputType := "greeter.v1.SayHelloRequest",
    outputType := "greeter.v1.SayHelloResponse" }

/-- A server-streaming method of the sample service. -/
def watchMethod : MethodDesc :=
  { name := "Watch", streamingClient := false, streamingServer := true,
    inputType := "scope.v1.WatchRequest", outputType := "scope.v1.WatchResponse" }

/-- The sample service descriptor. -/
def greeterService : ServiceDesc :=
  { fullName := "greeter.v1.GreeterService",
    methods := [greeterMethod, watchMethod] }

/-- The sample schema file as received over reflection. -/
def greeterFile : RawFile :=
  some { name := "greeter/v1/greeter.proto", services := [greeterService],
         buildOk := true }

/-- The sample schema file as registered. -/
def greeterFileDesc : FileDesc :=
  { name := "greeter/v1/greeter.proto", services := [greeterService] }

/-- A reflection exchange that succeeds and returns the sample file. -/
def okReflection : ReflectionOracle :=
  { openErr := none, sendErr := none,
    recvResult := .ok (.fileDescriptors [greeterFile]) }

/-- A replay request for the unary sample method. -/
def sampleRequest : Request :=
  { Method := "/greeter.v1.GreeterService/SayHello", PayloadJSON := "",
    Metadata := some [("authorization", ["Bearer token"]),
                      ("grpc-timeout", ["30s"])] }

/-- A replay request for the streaming sample method. -/
def streamRequest : Request :=
  { Method := "/greeter.v1.GreeterService/Watch", PayloadJSON := "",
    Metadata := none }

/-- An invocation answered by the server with NOT_FOUND (code 5). -/
def failingInvoke : Metadata → InvokeOutcome := fun _ =>
  { err := some { code := 5, message := "todo not found" },
    headers := [("content-type", ["application/grpc"])], trailers := [],
    durationNs := 120000 }

/-- An invocation cancelled by the 30-second timeout: grpc reports status
code 4 (`DeadlineExceeded`). -/
def cancelInvoke : Metadata → InvokeOutcome := fun _ =>
  { err := some { code := 4, message := "context deadline exceeded" },
    headers := [], trailers := [], durationNs := 30000000000 }

/-- Oracle: resolution succeeds, unmarshal succeeds, server answers
NOT_FOUND. -/
def sampleOracle : SendOracle :=
  { reflection := okReflection, unmarshalOk := fun _ => true,
    invoke := failingInvoke, marshalResponse := some "\x7b\x7d" }

/-- Oracle: resolution succeeds, invocation cancelled by the timeout. -/
def cancelOracle : SendOracle :=
  { reflection := okReflection, unmarshalOk := fun _ => true,
    invoke := cancelInvoke, marshalResponse := none }

/-- Oracle: the caller's context is cancelled while waiting for the
reflection response (before any invocation). -/
def recvCancelledOracle : SendOracle :=
  { reflection := { openErr := none, sendErr := none,
                    recvResult := .error "context canceled" },
    unmarshalOk := fun _ => true, invoke := cancelInvoke,
    marshalResponse := none }

theorem statusCodeString_out_of_range (c : Int) (h : c < 0 ∨ 17 < c) :
    statusCodeString c = "UNKNOWN" := by
  have hne : ∀ k : Int, 0 ≤ k → k ≤ 17 → ¬c = k := by
    intro k hk0 hk17 hc
    subst hc
    rcases h with h | h <;> omega
  simp [statusCodeString, StatusUnspecified, StatusOK, StatusCancelled,
    StatusUnknown, StatusInvalidArgument, StatusDeadlineExceeded,
    StatusNotFound, StatusAlreadyExists, StatusPermissionDenied,
    StatusResourceExhausted, StatusFailedPrecondition, StatusAborted,
    StatusOutOfRange, StatusUnimplemented, StatusInternal, StatusUnavailable,
    StatusDataLoss, StatusUnauthenticated,
    hne 0 (by decide) (by decide), hne 1 (by decide) (by decide),
    hne 2 (by decide) (by decide), hne 3 (by decide) (by decide),
    hne 4 (by decide) (by decide), hne 5 (by decide) (by decide),
    hne 6 (by decide) (by decide), hne 7 (by decide) (by decide),
    hne 8 (by decide) (by decide), hne 9 (by decide) (by decide),
    hne 10 (by decide) (by decide), hne 11 (by decide) (by decide),
    hne 12 (by decide) (by decide), hne 13 (by decide) (by decide),
    hne 14 (by decide) (by decide), hne 15 (by decide) (by decide),
    hne 16 (by decide) (by decide), hne 17 (by decide) (by decide)]

/-- C8: `StatusCode.String` is a total, side-effect-free function: each of the
eighteen values 0–17 maps to its canonical short name in declaration order,
and every other value — negative or above 17, in particular 99 — renders as
`"UNKNOWN"`.  Totality and purity hold by construction: `statusCodeString` is
a plain function. -/
theorem statusCodeString_spec :
    (∀ c : StatusCode, c < 0 ∨ 17 < c → statusCodeString c = "UNKNOWN") ∧
    statusCodeString 0 = "UNSPECIFIED" ∧
    statusCodeString 1 = "OK" ∧
    statusCodeString 2 = "CANCELLED" ∧
    statusCodeString 3 = "UNKNOWN" ∧
    statusCodeString 4 = "INVALID_ARGUMENT" ∧
    statusCodeString 5 = "DEADLINE_EXCEEDED" ∧
    statusCodeString 6 = "NOT_FOUND" ∧
    statusCodeString 7 = "ALREADY_EXISTS" ∧
    statusCodeString 8 = "PERMISSION_DENIED" ∧
    statusCodeString 9 = "RESOURCE_EXHAUSTED" ∧
    statusCodeString 10 = "FAILED_PRECONDITION" ∧
    statusCodeString 11 = "ABORTED" ∧
    statusCodeString 12 = "OUT_OF_RANGE" ∧
    statusCodeString 13 = "UNIMPLEMENTED" ∧
    statusCodeString 14 = "INTERNAL" ∧
    statusCodeString 15 = "UNAVAILABLE" ∧
    statusCodeString 16 = "DATA_LOSS" ∧
    statusCodeString 17 = "UNAUTHENTICATED" ∧
    statusCodeString 99 = "UNKNOWN" :=
  ⟨fun c h => statusCodeString_out_of_range c h, rfl, rfl, rfl, rfl, rfl, rfl, rfl, rfl, rfl,
    rfl, rfl, rfl, rfl, rfl, rfl, rfl, rfl, rfl, rfl⟩

/-- Witness for `statusCodeString_spec`: the out-of-range clause at `-5`. -/
theorem statusCodeString_spec_witness : statusCodeString (-5) = "UNKNOWN" :=
  statusCodeString_spec.1 (-5) (Or.inl (by decide))

/-! ## Broker lemmas -/

theorem chanOpenWithCap_iff {cs : List (Nat × Chan)} {cap j : Nat} :
    chanOpenWithCap cs cap j = true ↔
      ∃ c, lookupChan cs j = some c ∧ c.closed = false ∧ c.cap = cap := by
  unfold chanOpenWithCap
  cases h : lookupChan cs j with
  | none => simp
  | some c => simp [Bool.and_eq_true, Bool.not_eq_true', beq_iff_eq]

theorem lookupChan_append (cs ds : List (Nat × Chan)) (j : Nat) :
    lookupChan (cs ++ ds) j =
      match lookupChan cs j with
      | some c => some c
      | none => lookupChan ds j := by
  induction cs with
  | nil => simp [lookupChan]
  | cons p rest ih =>
    obtain ⟨i, c⟩ := p
    by_cases h : i = j <;> simp [lookupChan, h, ih]

theorem lookupChan_mem_keys {cs : List (Nat × Chan)} {j : Nat} {c : Chan}
    (h : lookupChan cs j = some c) : j ∈ cs.map Prod.fst := by
  induction cs with
  | nil => simp [lookupChan] at h
  | cons p rest ih =>
    obtain ⟨i, c'⟩ := p
    by_cases hij : i = j
    · simp [hij]
    · simp only [lookupChan, if_neg hij] at h
      simpa using Or.inr (ih h)

theorem lookupChan_not_mem {cs : List (Nat × Chan)} {j : Nat}
    (h : j ∉ cs.map Prod.fst) : lookupChan cs j = none := by
  cases hl : lookupChan cs j with
  | none => rfl
  | some c => exact absurd (lookupChan_mem_keys hl) h

theorem updateChan_some {cs : List (Nat × Chan)} {j : Nat} {f : Chan → Option Chan}
    {c c' : Chan} (hl : lookupChan cs j = some c) (hf : f c = some c') :
    ∃ cs', updateChan cs j f = some cs' ∧
      cs'.map Prod.fst = cs.map Prod.fst ∧
      lookupChan cs' j = some c' ∧
      ∀ k, k ≠ j → lookupChan cs' k = lookupChan cs k := by
  induction cs with
  | nil => simp [lookupChan] at hl
  | cons p rest ih =>
    obtain ⟨i, c₀⟩ := p
    by_cases hij : i = j
    · subst hij
      simp [lookupChan] at hl
      subst hl
      refine ⟨(i, c') :: rest, ?_, by simp, ?_, ?_⟩
      · simp [updateChan, hf]
      · simp [lookupChan]
      · intro k hk
        have hik : ¬i = k := fun h => hk (h ▸ rfl)
        simp [lookupChan, hik]
    · simp only [lookupChan, if_neg hij] at hl
      obtain ⟨cs', hcs', hkeys, hself, hother⟩ := ih hl
      refine ⟨(i, c₀) :: cs', ?_, by simp [hkeys], ?_, ?_⟩
      · simp [updateChan, hij, hcs']
      · simp [lookupChan, hij, hself]
      · intro k hk
        by_cases hik : i = k <;> simp [lookupChan, hik, hother k hk]

theorem NewBroker_WF (n : Nat) : BrokerWF (NewBroker n) := by
  refine ⟨?_, ?_, ?_⟩ <;> simp [NewBroker]

theorem Subscribe_WF {b : Broker} (h : BrokerWF b) : BrokerWF (b.Subscribe).1 := by
  obtain ⟨hnd, hopen, hfresh⟩ := h
  have hreglt : ∀ j ∈ b.registry, j < b.nextID := by
    intro j hj
    obtain ⟨c, hc, -, -⟩ := chanOpenWithCap_iff.mp (hopen j hj)
    have hmem := lookupChan_mem_keys hc
    simp only [List.mem_map] at hmem
    obtain ⟨p, hp, hpj⟩ := hmem
    exact hpj ▸ hfresh p hp
  have hnotin : b.nextID ∉ b.registry := fun hmem => absurd (hreglt _ hmem) (by omega)
  have hnew : lookupChan b.chans b.nextID = none := by
    apply lookupChan_not_mem
    intro hmem
    simp only [List.mem_map] at hmem
    obtain ⟨p, hp, hpj⟩ := hmem
    exact absurd (hpj ▸ hfresh p hp) (by omega)
  refine ⟨?_, ?_, ?_⟩
  · simp only [Broker.Subscribe, List.nodup_append]
    refine ⟨hnd, List.nodup_singleton _, ?_⟩
    intro a ha hb
    simp only [List.mem_singleton] at hb
    exact hnotin (hb ▸ ha)
  · intro j hj
    simp only [Broker.Subscribe, List.mem_append, List.mem_singleton] at hj
    rcases hj with hj | hj
    · obtain ⟨c, hc, hcl, hcap⟩ := chanOpenWithCap_iff.mp (hopen j hj)
      refine chanOpenWithCap_iff.mpr ⟨c, ?_, hcl, hcap⟩
      simp only [Broker.Subscribe]
      rw [lookupChan_append, hc]
    · subst hj
      refine chanOpenWithCap_iff.mpr
        ⟨{ buf := [], cap := b.bufSize, closed := false }, ?_, rfl, rfl⟩
      simp only [Broker.Subscribe]
      rw [lookupChan_append, hnew]
      simp [lookupChan]
  · intro p hp
    simp only [Broker.Subscribe, List.mem_append, List.mem_singleton] at hp
    rcases hp with hp | hp
    · exact Nat.lt_succ_of_lt (hfresh p hp)
    · subst hp; exact Nat.lt_succ_self _

theorem unsubscribe_total {b : Broker} (h : BrokerWF b) (j : Nat) :
    ∃ b', b.unsubscribe j = some b' ∧ BrokerWF b' := by
  obtain ⟨hnd, hopen, hfresh⟩ := h
  by_cases hj : j ∈ b.registry
  · obtain ⟨c, hc, hcl, hcap⟩ := chanOpenWithCap_iff.mp (hopen j hj)
    have hclose : closeChan c = some { c with closed := true } := by
      simp [closeChan, hcl]
    obtain ⟨cs', hcs', hkeys, hself, hother⟩ := updateChan_some hc hclose
    refine ⟨{ b with registry := b.registry.erase j, chans := cs' }, ?_, ?_, ?_, ?_⟩
    · simp [Broker.unsubscribe, hj, hcs']
    · exact hnd.erase j
    · intro k hk
      rw [hnd.mem_erase_iff] at hk
      obtain ⟨hkj, hkreg⟩ := hk
      obtain ⟨ck, hck, hckcl, hckcap⟩ := chanOpenWithCap_iff.mp (hopen k hkreg)
      exact chanOpenWithCap_iff.mpr ⟨ck, by rw [hother k hkj]; exact hck, hckcl, hckcap⟩
    · intro p hp
      have hkey : p.1 ∈ List.map Prod.fst cs' := List.mem_map_of_mem _ hp
      rw [hkeys] at hkey
      simp only [List.mem_map] at hkey
      obtain ⟨q, hq, hq1⟩ := hkey
      exact hq1 ▸ hfresh q hq
  · exact ⟨b, by simp [Broker.unsubscribe, hj], hnd, hopen, hfresh⟩

theorem publish_fold (e : CallEvent) :
    ∀ (reg : List Nat) (cs : List (Nat × Chan)),
      reg.Nodup →
      (∀ j ∈ reg, ∃ c, lookupChan cs j = some c ∧ c.closed = false) →
      ∃ cs', List.foldlM (fun acc j => updateChan acc j (fun c => trySend c e)) cs reg = some cs' ∧
        cs'.map Prod.fst = cs.map Prod.fst ∧
        ∀ j c, lookupChan cs j = some c →
          lookupChan cs' j =
            some (if j ∈ reg ∧ c.buf.length < c.cap
                  then { c with buf := c.buf ++ [e] } else c) := by
  intro reg
  induction reg with
  | nil =>
    intro cs _ _
    refine ⟨cs, rfl, rfl, ?_⟩
    intro j c hc
    simp [hc]
  | cons i rest ih =>
    intro cs hnd hopen
    obtain ⟨c₀, hc₀, hcl₀⟩ := hopen i (by simp)
    have hsend : trySend c₀ e =
        some (if c₀.buf.length < c₀.cap then { c₀ with buf := c₀.buf ++ [e] } else c₀) := by
      by_cases hlen : c₀.buf.length < c₀.cap <;> simp [trySend, hcl₀, hlen]
    obtain ⟨cs₁, hcs₁, hkeys₁, hself₁, hother₁⟩ :=
      updateChan_some (f := fun c => trySend c e) hc₀ hsend
    have hnotin : i ∉ rest := (List.nodup_cons.mp hnd).1
    have hndrest : rest.Nodup := (List.nodup_cons.mp hnd).2
    have hopenrest : ∀ j ∈ rest, ∃ c, lookupChan cs₁ j = some c ∧ c.closed = false := by
      intro j hj
      have hji : j ≠ i := fun h => hnotin (h ▸ hj)
      obtain ⟨c, hc, hcl⟩ := hopen j (by simp [hj])
      exact ⟨c, by rw [hother₁ j hji]; exact hc, hcl⟩
    obtain ⟨cs', hcs', hkeys', hres⟩ := ih cs₁ hndrest hopenrest
    refine ⟨cs', ?_, by rw [hkeys', hkeys₁], ?_⟩
    · simpa [List.foldlM, hcs₁] using hcs'
    · intro j c hc
      by_cases hji : j = i
      · subst hji
        have hcc : c = c₀ := by
          rw [hc] at hc₀
          exact Option.some.inj hc₀
        subst hcc
        have := hres j _ hself₁
        rw [this]
        have hjnotrest : ¬(j ∈ rest) := hnotin
        by_cases hlen : c.buf.length < c.cap
        · simp [hlen, hjnotrest]
        · simp [hlen, hjnotrest]
      · have hcs1j : lookupChan cs₁ j = some c := by rw [hother₁ j hji]; exact hc
        have := hres j c hcs1j
        rw [this]
        have : (j ∈ i :: rest) = (j ∈ rest) := by simp [hji]
        simp [hji]

theorem Publish_total {b : Broker} (h : BrokerWF b) (e : CallEvent) :
    ∃ b', b.Publish e = some b' ∧ BrokerWF b' ∧
      b'.registry = b.registry ∧ b'.nextID = b.nextID ∧ b'.bufSize = b.bufSize ∧
      b'.chans.map Prod.fst = b.chans.map Prod.fst ∧
      ∀ j c, lookupChan b.chans j = some c →
        lookupChan b'.chans j =
          some (if j ∈ b.registry ∧ c.buf.length < c.cap
                then { c with buf := c.buf ++ [e] } else c) := by
  obtain ⟨hnd, hopen, hfresh⟩ := h
  have hopen' : ∀ j ∈ b.registry, ∃ c, lookupChan b.chans j = some c ∧ c.closed = false := by
    intro j hj
    obtain ⟨c, hc, hcl, -⟩ := chanOpenWithCap_iff.mp (hopen j hj)
    exact ⟨c, hc, hcl⟩
  obtain ⟨cs', hcs', hkeys, hres⟩ := publish_fold e b.registry b.chans hnd hopen'
  refine ⟨{ b with chans := cs' }, ?_, ⟨hnd, ?_, ?_⟩, rfl, rfl, rfl, hkeys, ?_⟩
  · simp [Broker.Publish, hcs']
  · intro j hj
    obtain ⟨c, hc, hcl, hcap⟩ := chanOpenWithCap_iff.mp (hopen j hj)
    refine chanOpenWithCap_iff.mpr ⟨_, hres j c hc, ?_, ?_⟩
    · by_cases hcond : j ∈ b.registry ∧ c.buf.length < c.cap
      · simp only [if_pos hcond]; exact hcl
      · simp only [if_neg hcond]; exact hcl
    · by_cases hcond : j ∈ b.registry ∧ c.buf.length < c.cap
      · simp only [if_pos hcond]; exact hcap
      · simp only [if_neg hcond]; exact hcap
  · intro p hp
    have hkey : p.1 ∈ List.map Prod.fst cs' := List.mem_map_of_mem _ hp
    rw [hkeys] at hkey
    simp only [List.mem_map] at hkey
    obtain ⟨q, hq, hq1⟩ := hkey
    exact hq1 ▸ hfresh q hq
  · exact hres

theorem run_WF : ∀ (ops : List BrokerOp) (b : Broker), BrokerWF b →
    ∃ b', b.run ops = some b' ∧ BrokerWF b' := by
  intro ops
  induction ops with
  | nil => intro b h; exact ⟨b, rfl, h⟩
  | cons op rest ih =>
    intro b h
    match op with
    | .subscribe =>
      obtain ⟨b', hb', hwf'⟩ := ih (b.Subscribe).1 (Subscribe_WF h)
      exact ⟨b', by simpa [Broker.run, Broker.step] using hb', hwf'⟩
    | .unsubscribe j =>
      obtain ⟨b₁, hb₁, hwf₁⟩ := unsubscribe_total h j
      obtain ⟨b', hb', hwf'⟩ := ih b₁ hwf₁
      exact ⟨b', by simp [Broker.run, Broker.step, hb₁, hb'], hwf'⟩
    | .publish e =>
      obtain ⟨b₁, hb₁, hwf₁, -⟩ := Publish_total h e
      obtain ⟨b', hb', hwf'⟩ := ih b₁ hwf₁
      exact ⟨b', by simp [Broker.run, Broker.step, hb₁, hb'], hwf'⟩

/-- C1: For every (API-reachable, i.e. well-formed) broker state and every
event, `Broker.Publish` delivers the event to exactly those currently
registered subscribers whose queue holds fewer events than its capacity —
the capacity fixed at `NewBroker` (well-formedness forces every registered
channel's `cap` to equal `bufSize`).  For a subscriber with a full queue the
event is dropped for that subscriber only and its queued events are
untouched (drop-newest); all other channels are unchanged; `Publish` always
succeeds (`some`, i.e. it cannot fail or panic), returns no other value, and
— being a total function of the state — never blocks. -/
theorem Publish_delivers (b : Broker) (e : CallEvent) (hwf : BrokerWF b) :
    ∃ b', b.Publish e = some b' ∧
      b'.registry = b.registry ∧ b'.nextID = b.nextID ∧ b'.bufSize = b.bufSize ∧
      b'.chans.map Prod.fst = b.chans.map Prod.fst ∧
      ∀ j c, lookupChan b.chans j = some c →
        lookupChan b'.chans j =
          some (if j ∈ b.registry ∧ c.buf.length < c.cap
                then { c with buf := c.buf ++ [e] } else c) := by
  obtain ⟨b', hpub, -, hreg, hnext, hbuf, hkeys, hres⟩ := Publish_total hwf e
  exact ⟨b', hpub, hreg, hnext, hbuf, hkeys, hres⟩

/-- Witness for `Publish_delivers`: a broker with two capacity-1
subscribers, the first of whose queues is full, publishing a second event. -/
theorem Publish_delivers_witness :
    ∃ b', fullQueueBroker.Publish sampleEvent = some b' ∧
      b'.registry = fullQueueBroker.registry ∧
      b'.nextID = fullQueueBroker.nextID ∧
      b'.bufSize = fullQueueBroker.bufSize ∧
      b'.chans.map Prod.fst = fullQueueBroker.chans.map Prod.fst ∧
      ∀ j c, lookupChan fullQueueBroker.chans j = some c →
        lookupChan b'.chans j =
          some (if j ∈ fullQueueBroker.registry ∧ c.buf.length < c.cap
                then { c with buf := c.buf ++ [sampleEvent] } else c) :=
  Publish_delivers fullQueueBroker sampleEvent ⟨by decide, by decide, by decide⟩

/-- C2: No sequence of Subscribe/Publish/unsubscribe calls on a fresh broker
panics (`run` always returns `some`): queues are closed at most once and
`Publish` never sends on a closed queue, because in every reachable state
each queue present in the registry is open.  Moreover, calling an
unsubscribe function whose subscriber is no longer registered (e.g. a second
call) is a no-op. -/
theorem broker_never_panics :
    (∀ (n : Nat) (ops : List BrokerOp), ∃ b, (NewBroker n).run ops = some b ∧
        ∀ j ∈ b.registry, chanOpenWithCap b.chans b.bufSize j = true) ∧
    (∀ (b : Broker) (j : Nat), j ∉ b.registry → b.unsubscribe j = some b) := by
  constructor
  · intro n ops
    obtain ⟨b, hb, hwf⟩ := run_WF ops (NewBroker n) (NewBroker_WF n)
    exact ⟨b, hb, hwf.2.1⟩
  · intro b j h
    simp [Broker.unsubscribe, h]

/-- Witness for `broker_never_panics`: a double unsubscribe of an id that is
no longer registered is a no-op. -/
theorem broker_never_panics_witness :
    (NewBroker 2).unsubscribe 7 = some (NewBroker 2) :=
  broker_never_panics.2 (NewBroker 2) 7 (by decide)

/-! ## Watch stream theorems -/

/-- C9: Whenever the `Watch` handler terminates, it does so with no error
when the subscription queue was observed closed, with the context's
cancellation cause when the request context finished, and with the transport
error when a `stream.Send` failed — these being the only exit paths — and on
every exit path the broker unsubscribe function (the `defer unsub()`) was
invoked exactly once.  Formally: a terminating run decomposes the trace into
non-terminating receive iterations followed by the first terminal outcome,
which determines the result. -/
theorem watch_exit_paths (trace : List WatchEvent) (o : Option String)
    (acts : List WatchAction) (h : watchRun trace = (some o, acts)) :
    acts.countP isUnsub = 1 ∧
    ∃ pre t rest, trace = pre ++ t :: rest ∧
      (∀ u ∈ pre, ∃ ev, u = WatchEvent.recv ev none) ∧
      match t with
      | .ctxDone cause => o = some cause
      | .recvClosed => o = none
      | .recv _ se => ∃ m, se = some m ∧ o = some m := by
  induction trace generalizing o acts with
  | nil => simp [watchRun] at h
  | cons u rest ih =>
    match u with
    | .ctxDone cause =>
      simp only [watchRun, Prod.mk.injEq, Option.some.injEq] at h
      obtain ⟨ho, hacts⟩ := h
      subst ho; subst hacts
      exact ⟨by decide, [], .ctxDone cause, rest, rfl, by simp, rfl⟩
    | .recvClosed =>
      simp only [watchRun, Prod.mk.injEq, Option.some.injEq] at h
      obtain ⟨ho, hacts⟩ := h
      subst ho; subst hacts
      exact ⟨by decide, [], .recvClosed, rest, rfl, by simp, rfl⟩
    | .recv e (some msg) =>
      simp only [watchRun, Prod.mk.injEq, Option.some.injEq] at h
      obtain ⟨ho, hacts⟩ := h
      subst ho; subst hacts
      exact ⟨by simp [List.countP_cons, isUnsub], [], .recv e (some msg), rest, rfl,
        by simp, msg, rfl, rfl⟩
    | .recv e none =>
      simp only [watchRun, Prod.mk.injEq] at h
      obtain ⟨ho, hacts⟩ := h
      have hrun : watchRun rest = (some o, (watchRun rest).2) := by
        rw [← ho]
      obtain ⟨hcount, pre, t, rest', hdec, hpre, hout⟩ := ih _ _ hrun
      subst hacts
      refine ⟨?_, .recv e none :: pre, t, rest', by simp [hdec], ?_, hout⟩
      · simp [List.countP_cons, isUnsub, hcount]
      · intro u hu
        rcases List.mem_cons.mp hu with hu | hu
        · exact ⟨e, hu⟩
        · exact hpre u hu

/-- Witness for `watch_exit_paths`: the one-step trace observing the closed
subscription queue terminates cleanly after exactly one unsubscribe. -/
theorem watch_exit_paths_witness :
    List.countP isUnsub [WatchAction.unsubscribe] = 1 ∧
    ∃ pre t rest, ([WatchEvent.recvClosed] : List WatchEvent) = pre ++ t :: rest ∧
      (∀ u ∈ pre, ∃ ev, u = WatchEvent.recv ev none) ∧
      match t with
      | .ctxDone cause => (none : Option String) = some cause
      | .recvClosed => (none : Option String) = none
      | .recv _ se => ∃ m, se = some m ∧ (none : Option String) = some m :=
  watch_exit_paths [WatchEvent.recvClosed] none [WatchAction.unsubscribe] rfl

/-! ## ParseMethod theorems -/

theorem splitFirstSlash_sound : ∀ {l a b : List Char},
    splitFirstSlash l = some (a, b) → l = a ++ '/' :: b ∧ '/' ∉ a := by
  intro l
  induction l with
  | nil => intro a b h; simp [splitFirstSlash] at h
  | cons ch rest ih =>
    intro a b h
    by_cases hc : ch = '/'
    · subst hc
      simp only [splitFirstSlash, if_pos rfl] at h
      injection h with h2
      injection h2 with ha hb
      subst ha; subst hb
      exact ⟨rfl, by simp⟩
    · simp only [splitFirstSlash, if_neg hc] at h
      cases hs : splitFirstSlash rest with
      | none => rw [hs] at h; simp at h
      | some p =>
        obtain ⟨a2, b2⟩ := p
        rw [hs] at h
        simp only [Option.some.injEq, Prod.mk.injEq] at h
        obtain ⟨ha, hb⟩ := h
        subst hb
        obtain ⟨hl, hna⟩ := ih hs
        rw [← ha]
        refine ⟨by simp [hl], ?_⟩
        intro hm
        rcases List.mem_cons.mp hm with hm | hm
        · exact hc hm.symm
        · exact hna hm

theorem splitFirstSlash_complete : ∀ {a : List Char} (b : List Char), '/' ∉ a →
    splitFirstSlash (a ++ '/' :: b) = some (a, b) := by
  intro a
  induction a with
  | nil => intro b _; simp [splitFirstSlash]
  | cons ch rest ih =>
    intro b hna
    have hc : ¬ch = '/' := fun hh => hna (by simp [hh])
    have h2 : '/' ∉ rest := fun hh => hna (by simp [hh])
    simp [splitFirstSlash, hc, ih b h2]

theorem ParseMethod_eq_of_split {s : String} {a b : List Char}
    (hs : splitFirstSlash (trimLeadingSlash s.data) = some (a, b)) :
    ParseMethod s =
      if a = [] ∨ b = [] then
        .error (.invalidMethodFormat ⟨trimLeadingSlash s.data⟩)
      else .ok (⟨a⟩, ⟨b⟩) := by
  unfold ParseMethod
  rw [hs]

/-- C5: `ParseMethod` strips one optional leading slash, splits at the first
remaining slash, and returns the (service, method) pair; it succeeds exactly
when the trimmed string decomposes as `service ++ "/" ++ method` with a
slash-free non-empty service and a non-empty method — so it fails exactly
when the string is empty, has no slash after the optional leading one, or
either component is empty.  The listed concrete inputs behave as
specified. -/
theorem ParseMethod_spec :
    (∀ (s svc m : String),
        ParseMethod s = .ok (svc, m) ↔
          trimLeadingSlash s.data = svc.data ++ '/' :: m.data ∧
          '/' ∉ svc.data ∧ svc.data ≠ [] ∧ m.data ≠ []) ∧
    ParseMethod "" = .error (.invalidMethodFormat "") ∧
    ParseMethod "/" = .error (.invalidMethodFormat "") ∧
    ParseMethod "/greeter.v1.GreeterService/" =
      .error (.invalidMethodFormat "greeter.v1.GreeterService/") ∧
    ParseMethod "//SayHello" = .error (.invalidMethodFormat "/SayHello") ∧
    ParseMethod "/greeter.v1.GreeterService/SayHello" =
      .ok ("greeter.v1.GreeterService", "SayHello") ∧
    ParseMethod "greeter.v1.GreeterService/SayHello" =
      .ok ("greeter.v1.GreeterService", "SayHello") := by
  refine ⟨?_, rfl, rfl, rfl, rfl, rfl, rfl⟩
  intro s svc m
  constructor
  · intro h
    cases hs : splitFirstSlash (trimLeadingSlash s.data) with
    | none =>
      unfold ParseMethod at h
      rw [hs] at h
      exact absurd h (by simp)
    | some p =>
      obtain ⟨a, b⟩ := p
      rw [ParseMethod_eq_of_split hs] at h
      by_cases hemp : a = [] ∨ b = []
      · rw [if_pos hemp] at h; exact absurd h (by simp)
      · rw [if_neg hemp] at h
        simp only [Except.ok.injEq, Prod.mk.injEq] at h
        obtain ⟨hsvc, hm⟩ := h
        subst hsvc; subst hm
        obtain ⟨hl, hna⟩ := splitFirstSlash_sound hs
        push_neg at hemp
        exact ⟨hl, hna, hemp.1, hemp.2⟩
  · rintro ⟨hl, hna, hsvc, hm⟩
    have hs : splitFirstSlash (trimLeadingSlash s.data) = some (svc.data, m.data) := by
      rw [hl]; exact splitFirstSlash_complete m.data hna
    rw [ParseMethod_eq_of_split hs, if_neg (by simp [hsvc, hm])]

/-- Witness for `ParseMethod_spec`: the documented round trip on the sample
method path. -/
theorem ParseMethod_spec_witness :
    ParseMethod "/greeter.v1.GreeterService/SayHello" =
      .ok ("greeter.v1.GreeterService", "SayHello") :=
  (ParseMethod_spec.1 "/greeter.v1.GreeterService/SayHello"
      "greeter.v1.GreeterService" "SayHello").mpr (by decide)

/-! ## FilterMetadata theorems -/

theorem mdInsert_fresh {acc : Metadata} {k : String} {v : List String}
    (h : ∀ kv ∈ acc, kv.1 ≠ k) : mdInsert acc k v = acc ++ [(k, v)] := by
  induction acc with
  | nil => rfl
  | cons kv rest ih =>
    have hne : kv.1 ≠ k := h kv (by simp)
    simp only [mdInsert, if_neg hne, List.cons_append, List.cons.injEq, true_and]
    exact ih fun kv2 hm => h kv2 (by simp [hm])

theorem filterMetadata_fold (m : Metadata) :
    ∀ acc : Metadata,
      (specSurvivors m).Pairwise (fun a b => a.1 ≠ b.1) →
      (∀ kv ∈ specSurvivors m, ∀ a ∈ acc, a.1 ≠ kv.1) →
      m.foldl (fun acc2 kv =>
        if isTransportKey (toLowerStr kv.1) then acc2
        else mdInsert acc2 (toLowerStr kv.1) kv.2) acc
        = acc ++ specSurvivors m := by
  induction m with
  | nil => intro acc _ _; simp [specSurvivors]
  | cons kv rest ih =>
    intro acc hpair hdisj
    by_cases hf : isTransportKey (toLowerStr kv.1)
    · have hsurv : specSurvivors (kv :: rest) = specSurvivors rest := by
        simp [specSurvivors, List.filter_cons, hf]
      rw [hsurv] at hpair hdisj ⊢
      rw [List.foldl_cons, if_pos hf]
      exact ih acc hpair hdisj
    · have hsurv : specSurvivors (kv :: rest)
          = (toLowerStr kv.1, kv.2) :: specSurvivors rest := by
        simp [specSurvivors, List.filter_cons, hf]
      rw [hsurv] at hpair hdisj ⊢
      rw [List.foldl_cons, if_neg hf]
      have hfresh : ∀ a ∈ acc, a.1 ≠ toLowerStr kv.1 := fun a ha =>
        hdisj (toLowerStr kv.1, kv.2) (by simp) a ha
      rw [mdInsert_fresh hfresh]
      have hpair2 : (specSurvivors rest).Pairwise (fun a b => a.1 ≠ b.1) :=
        List.Pairwise.of_cons hpair
      have hhead : ∀ b2 ∈ specSurvivors rest, toLowerStr kv.1 ≠ b2.1 :=
        fun b2 hb2 => List.rel_of_pairwise_cons hpair hb2
      have hdisj2 : ∀ kv2 ∈ specSurvivors rest,
          ∀ a ∈ acc ++ [(toLowerStr kv.1, kv.2)], a.1 ≠ kv2.1 := by
        intro kv2 hkv2 a ha
        rcases List.mem_append.mp ha with ha | ha
        · exact hdisj kv2 (by simp [hkv2]) a ha
        · simp only [List.mem_singleton] at ha
          subst ha
          exact hhead kv2 hkv2
      rw [ih (acc ++ [(toLowerStr kv.1, kv.2)]) hpair2 hdisj2]
      simp

/-- C6 counterexample: the Go map `{"A": ["1"], "a": ["2"]}` has two keys
that both survive filtering, but they collide after lower-casing, so the
output holds only one of their value lists — the claim's "lower-cases all
surviving keys while keeping their value lists" fails at this input (under
any map iteration order one of the two lists is lost; the association list
fixes one such order). -/
theorem FilterMetadata_counterexample :
    FilterMetadata (some [("A", ["1"]), ("a", ["2"])]) = some [("a", ["2"])] := by
  decide

/-- C6 (amended): `FilterMetadata` drops the transport keys
case-insensitively and lower-cases the surviving keys keeping their value
lists — provided no two surviving keys coincide after lower-casing (on a
collision only one of the colliding entries' lists survives, chosen by map
iteration order); it returns nil when the input is nil or nothing survives;
the documented concrete example filters to exactly the lower-cased
`authorization` and `x-custom` entries. -/
theorem FilterMetadata_spec :
    FilterMetadata none = none ∧
    (∀ m : Metadata, (specSurvivors m).Pairwise (fun a b => a.1 ≠ b.1) →
        FilterMetadata (some m) =
          if specSurvivors m = [] then none else some (specSurvivors m)) ∧
    FilterMetadata (some [("authorization", ["Bearer token"]), ("x-custom", ["value"]),
        ("content-type", ["application/grpc"]), ("grpc-timeout", ["30s"])]) =
      some [("authorization", ["Bearer token"]), ("x-custom", ["value"])] := by
  refine ⟨rfl, ?_, by decide⟩
  intro m hpair
  simp only [FilterMetadata]
  rw [filterMetadata_fold m [] hpair (by intro kv _ a ha; simp at ha)]
  simp

/-- Witness for `FilterMetadata_spec`: the pairwise-distinct clause applied
to a two-entry mapping. -/
theorem FilterMetadata_spec_witness :
    FilterMetadata (some [("authorization", ["Bearer token"]), ("x-custom", ["value"])]) =
      if specSurvivors [("authorization", ["Bearer token"]), ("x-custom", ["value"])] = []
      then none
      else some (specSurvivors [("authorization", ["Bearer token"]), ("x-custom", ["value"])]) :=
  FilterMetadata_spec.2.1 [("authorization", ["Bearer token"]), ("x-custom", ["value"])]
    (by decide)

/-! ## Replay marker, result assembly, cancellation, streaming rejection -/

theorem mdLookup_mdInsert_self (m : Metadata) (k : String) (v : List String) :
    mdLookup (mdInsert m k v) k = some v := by
  induction m with
  | nil => simp [mdInsert, mdLookup]
  | cons kv rest ih =>
    by_cases h : kv.1 = k
    · simp [mdInsert, h, mdLookup]
    · simp [mdInsert, h, mdLookup, ih]

/-- C10: For every replay request — whether its metadata is nil, empty,
contains only filtered transport headers, or already contains the marker
key — the metadata `Send` attaches to the outgoing invocation
(`attachedMetadata`, the map `Send` passes to the invocation oracle)
contains the key `x-grpc-scope-replay` with the single value `"true"`. -/
theorem attachedMetadata_marker (req : Request) :
    mdLookup (attachedMetadata req) ReplayMetadataKey = some ["true"] := by
  have hk : toLowerStr ReplayMetadataKey = ReplayMetadataKey := by decide
  cases hf : FilterMetadata req.Metadata with
  | none =>
    simp only [attachedMetadata, mdSet, hf]
    rw [hk]
    exact mdLookup_mdInsert_self _ _ _
  | some mm =>
    simp only [attachedMetadata, mdSet, hf]
    rw [hk]
    exact mdLookup_mdInsert_self _ _ _

/-- C3: When the method parses, resolves to a unary method, and the payload
unmarshals, `Send` returns `(Result, nil)`: if the invocation came back with
an error status (the server answering non-OK), the `Result` carries that
status code (the native 0-based code, unchanged) and message, an empty
`ResponseJSON`, and the recorded duration, headers and trailers; if the
invocation succeeded, the `Result` carries the serialized response JSON and
status code 0. -/
theorem Send_result_assembly (o : SendOracle) (req : Request)
    (svc method : String) (mdesc : MethodDesc)
    (hp : ParseMethod req.Method = .ok (svc, method))
    (hr : resolveMethod o.reflection svc method = .ok mdesc)
    (hu : o.unmarshalOk (effectivePayload req) = true) :
    (∀ st, (o.invoke (attachedMetadata req)).err = some st →
        Send o req = .ok {
          ResponseJSON := "", StatusCode := st.code, StatusMessage := st.message,
          DurationNs := (o.invoke (attachedMetadata req)).durationNs,
          ResponseHeaders := (o.invoke (attachedMetadata req)).headers,
          ResponseTrailers := (o.invoke (attachedMetadata req)).trailers }) ∧
    (∀ j, (o.invoke (attachedMetadata req)).err = none →
        o.marshalResponse = some j →
        Send o req = .ok {
          ResponseJSON := j, StatusCode := 0, StatusMessage := "",
          DurationNs := (o.invoke (attachedMetadata req)).durationNs,
          ResponseHeaders := (o.invoke (attachedMetadata req)).headers,
          ResponseTrailers := (o.invoke (attachedMetadata req)).trailers }) := by
  constructor
  · intro st hst
    simp [Send, hp, hr, hu, hst]
  · intro j hn hj
    simp [Send, hp, hr, hu, hn, hj]

/-- Witness for `Send_result_assembly`: a replay answered NOT_FOUND (code 5)
by the server yields a `Result` with that status and no local error. -/
theorem Send_result_assembly_witness :
    Send sampleOracle sampleRequest = .ok {
      ResponseJSON := "", StatusCode := 5, StatusMessage := "todo not found",
      DurationNs := 120000,
      ResponseHeaders := [("content-type", ["application/grpc"])],
      ResponseTrailers := [] } :=
  (Send_result_assembly sampleOracle sampleRequest "greeter.v1.GreeterService"
      "SayHello" greeterMethod rfl rfl rfl).1
    { code := 5, message := "todo not found" } rfl

/-- C4 counterexample: a replay cancelled by the 30-second timeout *during
the invocation*.  grpc surfaces the expired `callCtx` as an `Invoke` error
with status code 4 (`DeadlineExceeded`); `Send` converts *any* invocation
error into a `Result` (replay.go line 118), so it returns a non-nil `Result`
carrying the cancellation as a status code with a nil error — contradicting
"returns a local (non-nil) error and no Result; it never returns a Result
carrying the cancellation as a status code". -/
theorem Send_cancellation_counterexample :
    Send cancelOracle sampleRequest = .ok {
      ResponseJSON := "", StatusCode := 4,
      StatusMessage := "context deadline exceeded",
      DurationNs := 30000000000, ResponseHeaders := [], ResponseTrailers := [] } := by
  rfl

/-- C4 (amended): a cancellation that strikes *before* the invocation — e.g.
while waiting for the reflection response during method resolution — makes
`Send` return a local error and no `Result`; a cancellation of the
invocation itself (the 30-second timeout or the caller's context during
`Invoke`) is reported like any other invocation error: a non-nil `Result`
carrying the cancellation's status code and message, with a nil error. -/
theorem Send_cancellation (o : SendOracle) (req : Request) (svc method : String)
    (hp : ParseMethod req.Method = .ok (svc, method)) :
    (∀ msg, o.reflection.openErr = none → o.reflection.sendErr = none →
        o.reflection.recvResult = .error msg →
        Send o req = .error (.recvReflectionResponse msg)) ∧
    (∀ mdesc st, resolveMethod o.reflection svc method = .ok mdesc →
        o.unmarshalOk (effectivePayload req) = true →
        (o.invoke (attachedMetadata req)).err = some st →
        ∃ r, Send o req = .ok r ∧ r.StatusCode = st.code ∧
          r.StatusMessage = st.message) := by
  constructor
  · intro msg ho hs hr
    have hres : resolveMethod o.reflection svc method =
        .error (.recvReflectionResponse msg) := by
      simp [resolveMethod, ho, hs, hr]
    simp [Send, hp, hres]
  · intro mdesc st hr hu hst
    exact ⟨_, (Send_result_assembly o req svc method mdesc hp hr hu).1 st hst, rfl, rfl⟩

/-- Witness for `Send_cancellation`: the caller's context cancelled while
waiting for the reflection response yields a local error, not a `Result`. -/
theorem Send_cancellation_witness :
    Send recvCancelledOracle sampleRequest =
      .error (.recvReflectionResponse "context canceled") :=
  (Send_cancellation recvCancelledOracle sampleRequest "greeter.v1.GreeterService"
      "SayHello" rfl).1 "context canceled" rfl rfl rfl

/-- C7: If the reflection exchange resolves the requested method to a
descriptor declared streaming-client or streaming-server, `Send` fails with
the distinct streaming error before any invocation is attempted — the
outcome is the same for every invocation oracle, i.e. independent of the
invocation; if the resolved method is unary, resolution succeeds and `Send`
proceeds to the invocation. -/
theorem streaming_rejected (o : SendOracle) (req : Request) (svc method : String)
    (raws : List RawFile) (reg : List FileDesc) (sd : ServiceDesc) (mdesc : MethodDesc)
    (hp : ParseMethod req.Method = .ok (svc, method))
    (ho : o.reflection.openErr = none)
    (hs : o.reflection.sendErr = none)
    (hr : o.reflection.recvResult = .ok (.fileDescriptors raws))
    (hreg : registerFiles raws [] = .ok reg)
    (hfind : findService reg svc = some sd)
    (hm : sd.methods.find? (fun m2 => m2.name == method) = some mdesc) :
    (mdesc.streamingClient = true ∨ mdesc.streamingServer = true →
        ∀ inv, Send { o with invoke := inv } req = .error .streamingNotSupported) ∧
    (mdesc.streamingClient = false → mdesc.streamingServer = false →
        resolveMethod o.reflection svc method = .ok mdesc) := by
  constructor
  · intro hstream inv
    have hres : resolveMethod o.reflection svc method =
        .error .streamingNotSupported := by
      rcases hstream with h | h <;>
        simp [resolveMethod, ho, hs, hr, hreg, hfind, hm, h]
    simp [Send, hp, hres]
  · intro h1 h2
    simp [resolveMethod, ho, hs, hr, hreg, hfind, hm, h1, h2]

/-- Witness for `streaming_rejected`: replaying the server-streaming
`Watch` method fails with the streaming error before invocation. -/
theorem streaming_rejected_witness :
    Send { sampleOracle with invoke := failingInvoke } streamRequest =
      .error .streamingNotSupported :=
  (streaming_rejected sampleOracle streamRequest "greeter.v1.GreeterService" "Watch"
      [greeterFile] [greeterFileDesc] greeterService watchMethod
      rfl rfl rfl rfl rfl rfl rfl).1 (Or.inr rfl) failingInvoke
